import Mathlib

/-!
Verification development for the noteblockplayer repository: a shallow
embedding of the NBS binary decoder (`ParseNBS`), the song conversion
(`nbsConverter`), the playback scheduler loop (`playSong`) and the session
cancellation entry point (`stopSong`), together with theorems settling the
specification's claims about them.

The binary input is modelled as a `List Nat` of byte values; Go's
`io.ReadFull`-based readers, which fail when the stream ends mid-field,
become functions into `Option`.  Machine integers are modelled as `Nat` or
`Int` with the one overflowing conversion (`uint16(maxTick)`) made explicit
as a reduction modulo 2^16.  Go's `float32` tempo is kept as the exact raw
centi-tempo read from the stream (the float is only used for the derived
`Duration` field and wall-clock sleep scaling, neither of which the claims
depend on); the scheduler trace therefore measures sleeps in whole ticks.
-/

namespace NoteblockPlayer

/-- `readUint8` from the Go binary reader helpers: one byte, or failure at
end of stream (`io.ReadFull` semantics). -/
def readUint8 : List Nat → Option (Nat × List Nat)
  | [] => none
  | b :: rest => some (b, rest)

/-- `readUint16`: two bytes, little endian. -/
def readUint16 : List Nat → Option (Nat × List Nat)
  | b0 :: b1 :: rest => some (b0 + 256 * b1, rest)
  | _ => none

/-- `readUint32`: four bytes, little endian. -/
def readUint32 : List Nat → Option (Nat × List Nat)
  | b0 :: b1 :: b2 :: b3 :: rest =>
      some (b0 + 256 * b1 + 65536 * b2 + 16777216 * b3, rest)
  | _ => none

/-- `readInt16`: two bytes, little endian, reinterpreted as a signed 16-bit
value (two's complement). -/
def readInt16 : List Nat → Option (Int × List Nat)
  | b0 :: b1 :: rest =>
      some (if b0 + 256 * b1 < 32768 then ((b0 + 256 * b1 : Nat) : Int)
            else ((b0 + 256 * b1 : Nat) : Int) - 65536, rest)
  | _ => none

/-- `readString`: a `u32` length followed by that many raw bytes.  The
string's content is cleaned and discarded by every caller in the decoder,
so the model only tracks consumption of the bytes; reading fails when fewer
than `len` bytes remain, as `io.ReadFull` does. -/
def readString (bytes : List Nat) : Option (List Nat) :=
  match readUint32 bytes with
  | none => none
  | some (len, rest) =>
      if len = 0 then some rest
      else if rest.length < len then none
      else some (rest.drop len)

/-- `Notes` from the Go source: one note event as read from the NBS file.
`Tick`/`Layer` are Go `int` (modelled as `Int`); `Instrument`, `Key`,
`Velocity`, `Panning` are `uint8` (modelled as `Nat`); `Pitch` is `int16`
(modelled as `Int`). -/
structure Notes where
  Tick : Int
  Layer : Int
  Instrument : Nat
  Key : Nat
  Velocity : Nat
  Panning : Nat
  Pitch : Int
deriving DecidableEq

/-- `NBSData` from the Go source.  `TempoRaw` is the exact `u16` centi-tempo
read from the stream; Go stores `Tempo = TempoRaw / 100` as a `float32` and
uses it only for the derived `Duration`, which the claims do not involve. -/
structure NBSData where
  Version : Nat
  Length : Nat
  Layers : Nat
  TempoRaw : Nat
  Notess : List Notes
deriving DecidableEq

/-- The straight-line header portion of `ParseNBS`: every field read (or
skipped) before the note-block stream, in source order.  Returns the
declared length, version, layer count, raw tempo, and the remaining bytes. -/
def parseHeader (bytes : List Nat) : Option (Nat × Nat × Nat × Nat × List Nat) :=
  match readUint16 bytes with
  | none => none
  | some (length, r1) =>
  match readUint8 r1 with
  | none => none
  | some (version, r2) =>
  match readUint8 r2 with
  | none => none
  | some (_, r3) =>
  match readUint16 r3 with
  | none => none
  | some (layers, r4) =>
  match readUint16 r4 with
  | none => none
  | some (_, r5) =>
  match readString r5 with
  | none => none
  | some r6 =>
  match readString r6 with
  | none => none
  | some r7 =>
  match readString r7 with
  | none => none
  | some r8 =>
  match readString r8 with
  | none => none
  | some r9 =>
  match readUint16 r9 with
  | none => none
  | some (tempoRaw, r10) =>
  match readUint8 r10 with
  | none => none
  | some (_, r11) =>
  match readUint8 r11 with
  | none => none
  | some (_, r12) =>
  match readUint8 r12 with
  | none => none
  | some (_, r13) =>
  match readUint32 r13 with
  | none => none
  | some (_, r14) =>
  match readUint32 r14 with
  | none => none
  | some (_, r15) =>
  match readUint32 r15 with
  | none => none
  | some (_, r16) =>
  match readUint32 r16 with
  | none => none
  | some (_, r17) =>
  match readUint32 r17 with
  | none => none
  | some (_, r18) =>
  match readString r18 with
  | none => none
  | some r19 =>
  match readUint8 r19 with
  | none => none
  | some (_, r20) =>
  match readUint8 r20 with
  | none => none
  | some (_, r21) =>
  match readUint16 r21 with
  | none => none
  | some (_, r22) => some (length, version, layers, tempoRaw, r22)

/-- The `version >= 4` gate inside the note loop: version 4 files carry
`velocity:u8`, `panning:u8`, `pitch:i16` per note; older versions default
them to `100, 100, 0` (the values Go initialises before the gate). -/
def readExtras (version : Nat) (bytes : List Nat) : Option (Nat × Nat × Int × List Nat) :=
  if version ≥ 4 then
    match readUint8 bytes with
    | none => none
    | some (velocity, r1) =>
        match readUint8 r1 with
        | none => none
        | some (panning, r2) =>
            match readInt16 r2 with
            | none => none
            | some (pitch, r3) => some (velocity, panning, pitch, r3)
  else some (100, 100, 0, bytes)

/-- The inner layer-delta loop of `ParseNBS` for one tick: read
`jump_layers:u16` (zero terminates the tick), advance `layer`, read
`instrument`, `key` and the version-gated extras, and keep the note unless
`key == 0` (placeholder slots are discarded).  The Go `for` loop is given a
fuel argument; every iteration consumes at least two bytes, so the caller's
fuel of `input length + 1` can never run out before the loop ends. -/
def parseLayers (version : Nat) (tick : Int) :
    Nat → Int → List Nat → Option (List Notes × List Nat)
  | 0, _, _ => none
  | fuel + 1, layer, bytes =>
    match readUint16 bytes with
    | none => none
    | some (jumpLayers, r1) =>
      if jumpLayers = 0 then some ([], r1)
      else
        match readUint8 r1 with
        | none => none
        | some (instrument, r2) =>
          match readUint8 r2 with
          | none => none
          | some (key, r3) =>
            match readExtras version r3 with
            | none => none
            | some (velocity, panning, pitch, r4) =>
              match parseLayers version tick fuel (layer + jumpLayers) r4 with
              | none => none
              | some (ns, r5) =>
                if key = 0 then some (ns, r5)
                else some ({ Tick := tick, Layer := layer + jumpLayers,
                             Instrument := instrument, Key := key,
                             Velocity := velocity, Panning := panning,
                             Pitch := pitch } :: ns, r5)

/-- The outer tick-delta loop of `ParseNBS`: read `jump_ticks:u16` (zero
terminates the stream), advance `tick`, and run the layer loop for that
tick.  Fuel as in `parseLayers`. -/
def parseTicks (version : Nat) :
    Nat → Int → List Nat → Option (List Notes × List Nat)
  | 0, _, _ => none
  | fuel + 1, tick, bytes =>
    match readUint16 bytes with
    | none => none
    | some (jumpTicks, r1) =>
      if jumpTicks = 0 then some ([], r1)
      else
        match parseLayers version (tick + jumpTicks) (r1.length + 1) (-1) r1 with
        | none => none
        | some (ns1, r2) =>
          match parseTicks version fuel (tick + jumpTicks) r2 with
          | none => none
          | some (ns2, r3) => some (ns1 ++ ns2, r3)

/-- Go's `uint16(x)` conversion of an `int`: the low 16 bits, i.e. the
Euclidean remainder modulo 2^16. -/
def goUint16OfInt (x : Int) : Nat := (x % 65536).toNat

/-- `maxTick` computation from the tail of `ParseNBS`: start from the first
note's tick and take every later note's tick when strictly larger. -/
def goMaxTick : List Notes → Int
  | [] => 0
  | n :: rest => (n :: rest).foldl (fun m x => if x.Tick > m then x.Tick else m) n.Tick

/-- The post-processing step of `ParseNBS`: when the declared length is zero
but notes exist, the length is recomputed as `uint16(maxTick)`. -/
def resolveLength (declared : Nat) (ns : List Notes) : Nat :=
  if declared = 0 ∧ 0 < ns.length then goUint16OfInt (goMaxTick ns) else declared

/-- `ParseNBS` over an in-memory byte stream: header, note-block stream with
initial `tick = -1`, then length recomputation.  Any failed read aborts the
whole decode (`Option.none`); no partially filled `NBSData` can be produced. -/
def ParseNBS (bytes : List Nat) : Option NBSData :=
  match parseHeader bytes with
  | none => none
  | some (length, version, layers, tempoRaw, rest) =>
    match parseTicks version (rest.length + 1) (-1) rest with
    | none => none
    | some (allNotess, _) =>
      some { Version := version, Length := resolveLength length allNotess,
             Layers := layers, TempoRaw := tempoRaw, Notess := allNotess }

/-- `Note` from the Go source: the format-agnostic note record of `Song`,
with every field a Go `int`. -/
structure Note where
  Tick : Int
  Layer : Int
  Instrument : Int
  Key : Int
  Velocity : Int
  Panning : Int
  Pitch : Int
deriving DecidableEq

/-- `Song` from the Go source, restricted to the fields the scheduler and
the claims use (`Tempo`, `Title`, `Author`, `Duration` carry no behaviour
relevant to the claims; tempo only scales the wall-clock sleep unit). -/
structure Song where
  Length : Int
  Notes : List Note
deriving DecidableEq

/-- Per-note part of `nbsConverter`: each field cast to Go `int`. -/
def noteOfNotes (n : Notes) : Note :=
  { Tick := n.Tick, Layer := n.Layer, Instrument := (n.Instrument : Int),
    Key := (n.Key : Int), Velocity := (n.Velocity : Int),
    Panning := (n.Panning : Int), Pitch := n.Pitch }

/-- `nbsConverter` from the Go source: `NBSData` to `Song`. -/
def nbsConverter (nd : NBSData) : Song :=
  { Length := (nd.Length : Int), Notes := nd.Notess.map noteOfNotes }

/-- A concrete well-formed header with the given declared length and
version, layer count 0, raw tempo 0, and every skipped field zeroed; the
four metadata strings and the import string are empty (`u32` length 0). -/
def mkHeader (length version : Nat) : List Nat :=
  [length % 256, length / 256, version, 0, 0, 0, 0, 0] ++ List.replicate 16 0 ++
  [0, 0] ++ [0, 0, 0] ++ List.replicate 20 0 ++ [0, 0, 0, 0] ++ [0, 0] ++ [0, 0]

/-- The crafted stream of the tick-delta/layer-delta decoding claim:
`jump_ticks` sequence `[3, 2, 0]`, with `jump_layers` sequence `[1, 0]`
inside the first tick and an empty layer list in the second. -/
def c3input : List Nat :=
  mkHeader 10 3 ++ [3, 0, 1, 0, 7, 33, 0, 0, 2, 0, 0, 0, 0, 0]

/-- The expected decode of `c3input`. -/
def c3data : NBSData :=
  { Version := 3, Length := 10, Layers := 0, TempoRaw := 0,
    Notess := [{ Tick := 2, Layer := 0, Instrument := 7, Key := 33,
                 Velocity := 100, Panning := 100, Pitch := 0 }] }

/-- Claim C3: decoding accumulates tick and layer as cumulative offsets from
−1 with sentinel-zero termination at each level: the stream with
`jump_ticks` `[3, 2, 0]` and first-tick `jump_layers` `[1, 0]` yields
exactly one event, at tick 2 and layer 0. -/
theorem tick_layer_delta_decoding :
    ParseNBS c3input = some c3data ∧ c3data.Notess.length = 1 := by
  constructor
  · rfl
  · rfl

/-- A version-3 file with one note (`instrument = 2`, `key = 45`) and no
per-note velocity/panning/pitch bytes in the stream. -/
def c6v3input : List Nat := mkHeader 1 3 ++ [1, 0, 1, 0, 2, 45, 0, 0, 0, 0]

/-- Expected decode of `c6v3input`: extras default to `100, 100, 0`. -/
def c6v3data : NBSData :=
  { Version := 3, Length := 1, Layers := 0, TempoRaw := 0,
    Notess := [{ Tick := 0, Layer := 0, Instrument := 2, Key := 45,
                 Velocity := 100, Panning := 100, Pitch := 0 }] }

/-- A version-4 file with the same note bytes as `c6v3input`, followed by
`velocity = 50`, `panning = 60`, `pitch = -2` (`0xFFFE` little endian). -/
def c6v4input : List Nat :=
  mkHeader 1 4 ++ [1, 0, 1, 0, 2, 45, 50, 60, 254, 255, 0, 0, 0, 0]

/-- Expected decode of `c6v4input`: extras read from the stream. -/
def c6v4data : NBSData :=
  { Version := 4, Length := 1, Layers := 0, TempoRaw := 0,
    Notess := [{ Tick := 0, Layer := 0, Instrument := 2, Key := 45,
                 Velocity := 50, Panning := 60, Pitch := -2 }] }

/-- Declared length 0, events at ticks 5, 7, 12 (tick deltas 6, 2, 5). -/
def c5input : List Nat :=
  mkHeader 0 3 ++ [6, 0, 1, 0, 0, 10, 0, 0, 2, 0, 1, 0, 0, 11, 0, 0,
                   5, 0, 1, 0, 0, 12, 0, 0, 0, 0]

/-- Expected decode of `c5input`: length resolved to the maximum tick 12. -/
def c5data : NBSData :=
  { Version := 3, Length := 12, Layers := 0, TempoRaw := 0,
    Notess := [{ Tick := 5, Layer := 0, Instrument := 0, Key := 10,
                 Velocity := 100, Panning := 100, Pitch := 0 },
               { Tick := 7, Layer := 0, Instrument := 0, Key := 11,
                 Velocity := 100, Panning := 100, Pitch := 0 },
               { Tick := 12, Layer := 0, Instrument := 0, Key := 12,
                 Velocity := 100, Panning := 100, Pitch := 0 }] }

/-- Declared length 0 and a single note at tick 69999 (two tick jumps of
35000, bytes `[184, 136]` little endian; the first jumped tick is empty). -/
def c5badinput : List Nat :=
  mkHeader 0 3 ++ [184, 136, 0, 0, 184, 136, 1, 0, 2, 40, 0, 0, 0, 0]

/-- Expected decode of `c5badinput`: `uint16(69999) = 4463`. -/
def c5baddata : NBSData :=
  { Version := 3, Length := 4463, Layers := 0, TempoRaw := 0,
    Notess := [{ Tick := 69999, Layer := 0, Instrument := 2, Key := 40,
                 Velocity := 100, Panning := 100, Pitch := 0 }] }

/-- Declared length 0 and a single note at tick 79999 (two tick jumps of
40000, bytes `[64, 156]` little endian; the first jumped tick is empty). -/
def c10input : List Nat :=
  mkHeader 0 3 ++ [64, 156, 0, 0, 64, 156, 1, 0, 2, 40, 0, 0, 0, 0]

/-- Expected decode of `c10input`: `uint16(79999) = 14463`. -/
def c10data : NBSData :=
  { Version := 3, Length := 14463, Layers := 0, TempoRaw := 0,
    Notess := [{ Tick := 79999, Layer := 0, Instrument := 2, Key := 40,
                 Velocity := 100, Panning := 100, Pitch := 0 }] }

/-- Counterexample to claim C5 as stated: with declared length 0 the length
is not always "the maximum event tick" — for `c5badinput` the maximum event
tick is 69999 but the decoded length is `uint16(69999) = 4463`. -/
theorem length_recompute_counterexample :
    ParseNBS c5badinput = some c5baddata ∧ goMaxTick c5baddata.Notess = 69999 ∧
    c5baddata.Length ≠ 69999 := by
  refine ⟨rfl, rfl, by decide⟩

/-- Claim C10: when declared length is 0 and events exist, the recomputed
length is the maximum event tick reduced modulo 2^16; for `c10input` the
maximum tick 79999 exceeds 65535 and the decoded length 14463 is strictly
smaller. -/
theorem recomputed_length_modulo_u16 :
    ParseNBS c10input = some c10data ∧ goMaxTick c10data.Notess = 79999 ∧
    c10data.Length = 79999 % 65536 ∧
    ((c10data.Length : Int) < goMaxTick c10data.Notess) := by
  refine ⟨rfl, rfl, by decide, by decide⟩

/-- Claim C8: whenever the stream ends before a required field is fully
read, decode aborts with no `NBSData` produced: every strict prefix of the
valid input `c3input` fails to decode (the `Option` result is `none`, so a
partially filled structure is impossible by construction), while the full
input decodes successfully. -/
theorem truncated_input_aborts :
    (List.range c3input.length).all
      (fun k => (ParseNBS (List.take k c3input)).isNone) = true ∧
    (ParseNBS c3input).isSome = true := by
  refine ⟨by decide, by decide⟩

/-! ### Playback scheduler model

`playSong` is embedded as a trace-producing function.  One `Action` is
recorded per observable step of the Go loop: `sleep k` for
`time.Sleep(k * tickDuration)` (the wall-clock unit `tickDuration` is
factored out, so sleeps are measured in whole ticks), `play n` for the
per-note delivery (`fmt.Printf` + `playSoundSelf`), and `finishedMsg` /
`removeSession` for the two steps of the deferred handler that runs on
every exit of `playSong`.  The cancellation channel is modelled by the
iteration index from which the signal is available: the Go loop polls the
channel at the top of every iteration, so a signal raised before iteration
`c` is observed at the first iteration whose tick is `≥ c`. -/

/-- One observable step of the playback loop. -/
inductive Action where
  | sleep (ticks : Nat)
  | play (n : Note)
  | finishedMsg
  | removeSession
deriving DecidableEq

/-- The `notesPerTick` grouping built before the loop: Go appends each note
of `song.Notes`, in order, to the bucket of its tick, so the bucket of tick
`t` is the in-order sublist of notes whose tick is `t`. -/
def notesAtTick (song : Song) (t : Int) : List Note :=
  song.Notes.filter (fun n => n.Tick == t)

/-- Whether the non-blocking poll at the top of the iteration for tick `t`
observes the cancellation signal. -/
def cancelObserved : Option Int → Int → Bool
  | some c, t => decide (c ≤ t)
  | none, _ => false

/-- The body of the Go `for tick := 0; tick <= song.Length; tick++` loop,
over the explicit list of tick values and the `currentTick` variable:
poll the cancellation channel (observing it returns at once), sleep
`(tick − currentTick) × tickDuration` when `tick > currentTick`, then play
every note of this tick's bucket. -/
def runTicks (song : Song) (cancelAt : Option Int) :
    List Int → Int → List Action
  | [], _ => []
  | t :: ts, currentTick =>
    if cancelObserved cancelAt t then []
    else
      (if currentTick < t then [Action.sleep (t - currentTick).toNat] else []) ++
      (notesAtTick song t).map Action.play ++
      runTicks song cancelAt ts (if currentTick < t then t else currentTick)

/-- The tick values visited by the loop: `0, 1, ..., song.Length` (none when
the length is negative, exactly as the Go loop condition behaves). -/
def songTicks (song : Song) : List Int :=
  (List.range (song.Length + 1).toNat).map (fun k => (k : Int))

/-- The full trace of one `playSong` call: the loop's actions followed by
the deferred handler, which sends the completion message and deletes the
session entry on every exit — normal or cancelled. -/
def playSongTrace (song : Song) (cancelAt : Option Int) : List Action :=
  runTicks song cancelAt (songTicks song) 0 ++
  [Action.finishedMsg, Action.removeSession]

/-- `stopSong` over the session registry, modelled by its characteristic
function (Go map keys are unique): when an entry for the handle exists the
signal is sent best-effort, the entry is deleted and `true` is returned;
otherwise nothing changes and `false` is returned.  The function is total:
`stop` never errors. -/
def stopSong (registry : Nat → Bool) (eh : Nat) : Bool × (Nat → Bool) :=
  if registry eh then (true, fun x => if x = eh then false else registry x)
  else (false, registry)

/-- A two-note song of length 2 used to exercise cancellation. -/
def c1song : Song :=
  { Length := 2,
    Notes := [{ Tick := 0, Layer := 0, Instrument := 0, Key := 40,
                Velocity := 100, Panning := 100, Pitch := 0 },
              { Tick := 2, Layer := 0, Instrument := 0, Key := 41,
                Velocity := 100, Panning := 100, Pitch := 0 }] }

/-- First tick-0 note of the scheduler-ordering song. -/
def c2n1 : Note :=
  { Tick := 0, Layer := 0, Instrument := 0, Key := 40,
    Velocity := 100, Panning := 100, Pitch := 0 }

/-- Second tick-0 note of the scheduler-ordering song. -/
def c2n2 : Note :=
  { Tick := 0, Layer := 1, Instrument := 0, Key := 41,
    Velocity := 100, Panning := 100, Pitch := 0 }

/-- Tick-5 note of the scheduler-ordering song. -/
def c2n3 : Note :=
  { Tick := 5, Layer := 0, Instrument := 0, Key := 42,
    Velocity := 100, Panning := 100, Pitch := 0 }

/-- The song of the scheduler-ordering claim: events at ticks 0, 0, 5. -/
def c2song : Song := { Length := 5, Notes := [c2n1, c2n2, c2n3] }

/-- The duration of a sleep action, in ticks. -/
def sleepDuration : Action → Option Nat
  | Action.sleep d => some d
  | _ => none

/-- Counterexample to claim C1 as stated: a run of `c1song` whose
cancellation signal is observed at the very first tick iteration plays
nothing, yet its trace still contains the completion notice — the deferred
handler delivers it on every exit, not only on normal completion. -/
theorem cancelled_run_still_notifies :
    playSongTrace c1song (some 0) = [Action.finishedMsg, Action.removeSession] ∧
    Action.finishedMsg ∈ playSongTrace c1song (some 0) := by
  refine ⟨by decide, by decide⟩

/-- Counterexample to claim C2 as stated: for the song with events at ticks
0, 0, 5 the sleeps of the whole run are five one-tick sleeps — not a single
sleep spanning 5 ticks, which never occurs in the trace. -/
theorem gap_sleep_counterexample :
    (playSongTrace c2song none).filterMap sleepDuration = [1, 1, 1, 1, 1] ∧
    Action.sleep 5 ∉ playSongTrace c2song none := by
  refine ⟨by decide, by decide⟩

/-- Claim C2 as amended: both tick-0 events are delivered before any sleep,
but the loop then visits every tick and sleeps one tick's duration per
iteration — the third event is preceded by five one-tick sleeps whose
durations sum to the 5-tick gap, not by one five-tick sleep. -/
theorem per_tick_sleep_trace :
    playSongTrace c2song none =
      [Action.play c2n1, Action.play c2n2, Action.sleep 1, Action.sleep 1,
       Action.sleep 1, Action.sleep 1, Action.sleep 1, Action.play c2n3,
       Action.finishedMsg, Action.removeSession] ∧
    ((playSongTrace c2song none).filterMap sleepDuration).sum = 5 := by
  refine ⟨by decide, by decide⟩

/-- Claim C7: `stopSong` never errors (it is a total function) and reports
whether a session existed: it returns `true` exactly when the registry holds
an entry for the handle, the entry is absent afterwards in every case, and a
second call for the same handle returns `false`. -/
theorem stop_reports_and_clears (registry : Nat → Bool) (eh : Nat) :
    (stopSong registry eh).1 = registry eh ∧
    (stopSong registry eh).2 eh = false ∧
    (stopSong (stopSong registry eh).2 eh).1 = false := by
  cases h : registry eh <;> simp [stopSong, h]

/-- When `version < 4` the extras gate leaves the defaults `100, 100, 0`. -/
theorem readExtras_defaults {version : Nat} {bytes : List Nat} {velocity panning : Nat}
    {pitch : Int} {rest : List Nat}
    (h : readExtras version bytes = some (velocity, panning, pitch, rest))
    (hv : version < 4) : velocity = 100 ∧ panning = 100 ∧ pitch = 0 := by
  rw [readExtras, if_neg (by omega)] at h
  simp only [Option.some.injEq, Prod.mk.injEq] at h
  exact ⟨h.1.symm, h.2.1.symm, h.2.2.1.symm⟩

/-- Invariants of the inner layer loop: every note produced for a tick
carries that tick, a layer strictly above the running layer (deltas are
positive), a nonzero key, and — below version 4 — the default extras; and
the notes of one tick are mutually in strictly increasing layer order. -/
theorem parseLayers_inv (version : Nat) (tick : Int) :
    ∀ fuel layer bytes ns rest,
      parseLayers version tick fuel layer bytes = some (ns, rest) →
      (∀ n ∈ ns, n.Tick = tick ∧ layer < n.Layer ∧ n.Key ≠ 0 ∧
        (version < 4 → n.Velocity = 100 ∧ n.Panning = 100 ∧ n.Pitch = 0)) ∧
      ns.Pairwise (fun a b => a.Layer < b.Layer) := by
  intro fuel
  induction fuel with
  | zero =>
    intro layer bytes ns rest h
    simp [parseLayers] at h
  | succ fuel ih =>
    intro layer bytes ns rest h
    rw [parseLayers] at h
    split at h
    · exact absurd h (by simp)
    · rename_i p jumpLayers r1 h16
      split at h
      · rcases h with ⟨rfl, rfl⟩
        simp
      · rename_i hjl
        split at h
        · exact absurd h (by simp)
        · rename_i q instrument r2 h8a
          split at h
          · exact absurd h (by simp)
          · rename_i q2 key r3 h8b
            split at h
            · exact absurd h (by simp)
            · rename_i q3 velocity panning pitch r4 hex
              split at h
              · exact absurd h (by simp)
              · rename_i q4 ns5 r5 hrec
                obtain ⟨hall, hpw⟩ := ih (layer + jumpLayers) r4 ns5 r5 hrec
                have hlt : layer < layer + (jumpLayers : Int) := by
                  have hpos : (0 : Int) < (jumpLayers : Int) := by
                    exact_mod_cast Nat.pos_of_ne_zero hjl
                  omega
                split at h
                · rename_i hkey
                  rcases h with ⟨rfl, rfl⟩
                  refine ⟨fun n hn => ?_, hpw⟩
                  obtain ⟨h1, h2, h3, h4⟩ := hall n hn
                  exact ⟨h1, by omega, h3, h4⟩
                · rename_i hkey
                  rcases h with ⟨rfl, rfl⟩
                  constructor
                  · intro n hn
                    rcases List.mem_cons.mp hn with rfl | hn2
                    · exact ⟨rfl, hlt, hkey, fun hv => readExtras_defaults hex hv⟩
                    · obtain ⟨h1, h2, h3, h4⟩ := hall n hn2
                      exact ⟨h1, by omega, h3, h4⟩
                  · exact List.pairwise_cons.mpr ⟨fun b hb => (hall b hb).2.1, hpw⟩

/-- Invariants of the outer tick loop: every note produced after the
running tick lies strictly after it (tick deltas are positive), has layer
above −1, a nonzero key and — below version 4 — default extras; and the
produced list is ordered by the lexicographic (tick, layer) strict order. -/
theorem parseTicks_inv (version : Nat) :
    ∀ fuel tick bytes ns rest,
      parseTicks version fuel tick bytes = some (ns, rest) →
      (∀ n ∈ ns, tick < n.Tick ∧ (-1 : Int) < n.Layer ∧ n.Key ≠ 0 ∧
        (version < 4 → n.Velocity = 100 ∧ n.Panning = 100 ∧ n.Pitch = 0)) ∧
      ns.Pairwise (fun a b => a.Tick < b.Tick ∨ (a.Tick = b.Tick ∧ a.Layer < b.Layer)) := by
  intro fuel
  induction fuel with
  | zero =>
    intro tick bytes ns rest h
    simp [parseTicks] at h
  | succ fuel ih =>
    intro tick bytes ns rest h
    rw [parseTicks] at h
    split at h
    · exact absurd h (by simp)
    · rename_i p jumpTicks r1 h16
      split at h
      · rcases h with ⟨rfl, rfl⟩
        simp
      · rename_i hjt
        split at h
        · exact absurd h (by simp)
        · rename_i q ns1 r2 hlay
          split at h
          · exact absurd h (by simp)
          · rename_i q2 ns2 r3 hrec
            rcases h with ⟨rfl, rfl⟩
            obtain ⟨hall1, hpw1⟩ := parseLayers_inv version _ _ _ _ _ _ hlay
            obtain ⟨hall2, hpw2⟩ := ih _ _ _ _ hrec
            have hjt2 : tick < tick + (jumpTicks : Int) := by
              have hpos : (0 : Int) < (jumpTicks : Int) := by
                exact_mod_cast Nat.pos_of_ne_zero hjt
              omega
            constructor
            · intro n hn
              rcases List.mem_append.mp hn with hn1 | hn2
              · obtain ⟨h1, h2, h3, h4⟩ := hall1 n hn1
                exact ⟨h1 ▸ hjt2, h2, h3, h4⟩
              · obtain ⟨h1, h2, h3, h4⟩ := hall2 n hn2
                exact ⟨lt_trans hjt2 h1, h2, h3, h4⟩
            · refine List.pairwise_append.mpr ⟨?_, hpw2, ?_⟩
              · refine hpw1.imp_of_mem ?_
                intro a b ha hb hr
                exact Or.inr ⟨(hall1 a ha).1.trans (hall1 b hb).1.symm, hr⟩
              · intro a ha b hb
                exact Or.inl (((hall1 a ha).1).symm ▸ (hall2 b hb).1)

/-- Master invariant of the decoder: in any successfully parsed `NBSData`,
every note has tick and layer strictly above −1, a nonzero key and — below
version 4 — the default extras, and the note list is sorted by the
lexicographic (tick, layer) strict order. -/
theorem ParseNBS_inv (bytes : List Nat) (d : NBSData) (h : ParseNBS bytes = some d) :
    (∀ n ∈ d.Notess, (-1 : Int) < n.Tick ∧ (-1 : Int) < n.Layer ∧ n.Key ≠ 0 ∧
      (d.Version < 4 → n.Velocity = 100 ∧ n.Panning = 100 ∧ n.Pitch = 0)) ∧
    d.Notess.Pairwise (fun a b => a.Tick < b.Tick ∨ (a.Tick = b.Tick ∧ a.Layer < b.Layer)) := by
  rw [ParseNBS] at h
  split at h
  · exact absurd h (by simp)
  · rename_i p length version layers tempoRaw rest hhead
    split at h
    · exact absurd h (by simp)
    · rename_i q allNotess rest2 hticks
      obtain ⟨hall, hpw⟩ := parseTicks_inv version _ _ _ _ _ hticks
      obtain rfl := Option.some.inj h
      exact ⟨hall, hpw⟩

/-- Claim C4: no event with key 0 appears in the decoded `Song` — entries
read with `key == 0` are discarded during decode. -/
theorem decoded_song_no_zero_key (bytes : List Nat) (d : NBSData) (n : Note)
    (h : ParseNBS bytes = some d) (hn : n ∈ (nbsConverter d).Notes) : n.Key ≠ 0 := by
  rcases List.mem_map.mp hn with ⟨m, hm, rfl⟩
  have hk := ((ParseNBS_inv bytes d h).1 m hm).2.2.1
  simp only [noteOfNotes, ne_eq]
  exact_mod_cast hk

/-- Witness for claim C4 at the concrete input `c3input`. -/
theorem decoded_song_no_zero_key_witness :
    (noteOfNotes { Tick := 2, Layer := 0, Instrument := 7, Key := 33,
                   Velocity := 100, Panning := 100, Pitch := 0 }).Key ≠ 0 :=
  decoded_song_no_zero_key c3input c3data _ rfl (by decide)

/-- Claim C9: in every successfully decoded `Song` the note list is ordered
by non-decreasing tick, notes sharing a tick appear in strictly increasing
layer order, and every tick and layer is nonnegative. -/
theorem decoded_song_sorted (bytes : List Nat) (d : NBSData)
    (h : ParseNBS bytes = some d) :
    (nbsConverter d).Notes.Pairwise
      (fun a b => a.Tick < b.Tick ∨ (a.Tick = b.Tick ∧ a.Layer < b.Layer)) ∧
    ∀ n ∈ (nbsConverter d).Notes, 0 ≤ n.Tick ∧ 0 ≤ n.Layer := by
  obtain ⟨hall, hpw⟩ := ParseNBS_inv bytes d h
  constructor
  · exact List.pairwise_map.mpr hpw
  · intro n hn
    rcases List.mem_map.mp hn with ⟨m, hm, rfl⟩
    obtain ⟨h1, h2, _, _⟩ := hall m hm
    simp only [noteOfNotes]
    omega

/-- Witness for claim C9 at the concrete input `c5input`. -/
theorem decoded_song_sorted_witness :
    (nbsConverter c5data).Notes.Pairwise
      (fun a b => a.Tick < b.Tick ∨ (a.Tick = b.Tick ∧ a.Layer < b.Layer)) ∧
    ∀ n ∈ (nbsConverter c5data).Notes, 0 ≤ n.Tick ∧ 0 ≤ n.Layer :=
  decoded_song_sorted c5input c5data rfl

/-- Claim C6: below version 4 every decoded event carries the default
velocity 100, panning 100, pitch 0; and concretely, the same note bytes
decode to the defaults under version 3 and to the stream-supplied values
`50, 60, −2` under version 4. -/
theorem version_gated_extras :
    (∀ bytes d, ParseNBS bytes = some d → d.Version < 4 →
      ∀ n ∈ d.Notess, n.Velocity = 100 ∧ n.Panning = 100 ∧ n.Pitch = 0) ∧
    ParseNBS c6v3input = some c6v3data ∧ ParseNBS c6v4input = some c6v4data := by
  refine ⟨fun bytes d h hv n hn => ((ParseNBS_inv bytes d h).1 n hn).2.2.2 hv, rfl, rfl⟩

/-- Witness for claim C6 at the concrete input `c6v3input`. -/
theorem version_gated_extras_witness :
    ∀ n ∈ c6v3data.Notess, n.Velocity = 100 ∧ n.Panning = 100 ∧ n.Pitch = 0 :=
  version_gated_extras.1 c6v3input c6v3data rfl (by decide)

/-- Claim C5 as amended: with declared length 0 and events at ticks
5, 7, 12 the decoder resolves length 12, and in general a nonzero declared
length is left unchanged while a zero declared length with events present is
recomputed as `uint16` of the maximum event tick. -/
theorem length_inference :
    (ParseNBS c5input = some c5data ∧ c5data.Length = 12) ∧
    (∀ bytes length version layers tempoRaw rest d,
      parseHeader bytes = some (length, version, layers, tempoRaw, rest) →
      ParseNBS bytes = some d →
      (length ≠ 0 → d.Length = length) ∧
      (length = 0 → d.Notess ≠ [] → d.Length = goUint16OfInt (goMaxTick d.Notess))) := by
  constructor
  · exact ⟨rfl, rfl⟩
  · intro bytes length version layers tempoRaw rest d hhead h
    rw [ParseNBS] at h
    split at h
    · exact absurd h (by simp)
    · rename_i p length2 version2 layers2 tempoRaw2 rest2 hhead2
      rw [hhead] at hhead2
      rcases hhead2 with ⟨rfl, rfl, rfl, rfl, rfl⟩
      split at h
      · exact absurd h (by simp)
      · rename_i q allNotess rest3 hticks
        obtain rfl := Option.some.inj h
        constructor
        · intro hne
          simp [resolveLength, hne]
        · intro h0 hnotes
          have hlen : 0 < allNotess.length := List.length_pos.mpr hnotes
          simp [resolveLength, h0, hlen]

/-- Witness for the general part of claim C5 at the concrete input
`c3input`, whose declared length 10 is left unchanged. -/
theorem length_inference_witness : c3data.Length = 10 :=
  (length_inference.2 c3input 10 3 0 0 [3, 0, 1, 0, 7, 33, 0, 0, 2, 0, 0, 0, 0, 0]
    c3data rfl rfl).1 (by decide)

/-- Once the cancellation signal is observable (from tick `c` on), the loop
plays no note of any tick at or beyond `c`: every played note comes from an
iteration that ran before the signal was observed. -/
theorem runTicks_play_tick_lt (song : Song) (c : Int) :
    ∀ ts currentTick n, Action.play n ∈ runTicks song (some c) ts currentTick →
      n.Tick < c := by
  intro ts
  induction ts with
  | nil =>
    intro currentTick n h
    simp [runTicks] at h
  | cons t ts ih =>
    intro currentTick n h
    rw [runTicks] at h
    split at h
    · simp at h
    · rename_i hco
      have htc : t < c := by
        simp [cancelObserved] at hco
        omega
      rcases List.mem_append.mp h with h1 | h2
      · rcases List.mem_append.mp h1 with h0 | hplay
        · split at h0 <;> simp at h0
        · rcases List.mem_map.mp hplay with ⟨m, hm, heq⟩
          obtain rfl : m = n := by
            cases heq
            rfl
          have : m.Tick = t := by
            have := (List.mem_filter.mp hm).2
            exact eq_of_beq this
          omega
      · exact ih _ n h2

/-- Claim C1 as amended: when the cancellation signal is observed at the
top of a tick iteration, the loop exits immediately and plays no event of
any later tick; however, the deferred handler runs on every exit of
`playSong`, so the completion notice is delivered and the session entry is
removed on cancelled runs exactly as on normal completion — not only on
normal completion, as claimed. -/
theorem playback_exit_behavior (song : Song) (c : Int) :
    (∀ n, Action.play n ∈ playSongTrace song (some c) → n.Tick < c) ∧
    Action.finishedMsg ∈ playSongTrace song (some c) ∧
    Action.removeSession ∈ playSongTrace song (some c) ∧
    Action.finishedMsg ∈ playSongTrace song none := by
  refine ⟨fun n hn => ?_, ?_, ?_, ?_⟩
  · rcases List.mem_append.mp hn with h1 | h2
    · exact runTicks_play_tick_lt song c (songTicks song) 0 n h1
    · simp at h2
  all_goals simp [playSongTrace]

/-- Witness for claim C1 as amended: for `c1song` with the signal available
from tick 1, the tick-0 note is played (tick 0 < 1) and the completion
notice still appears in the cancelled run's trace. -/
theorem playback_exit_behavior_witness :
    ({ Tick := 0, Layer := 0, Instrument := 0, Key := 40, Velocity := 100,
       Panning := 100, Pitch := 0 } : Note).Tick < 1 ∧
    Action.finishedMsg ∈ playSongTrace c1song (some 1) :=
  ⟨(playback_exit_behavior c1song 1).1 _ (by decide),
   (playback_exit_behavior c1song 1).2.1⟩

end NoteblockPlayer
